import Mathlib

/-
Verification of the Leosac polymorphic audit serialization core.

The development shallowly embeds:
  - a JSON value type mirroring nlohmann::json, together with the exact
    semantics of the member accessors used by the sources: at (throwing
    lookup), and the two-level bracket assignment used in
    GroupEventSerializer.cpp (bracket access inserts null into an object or
    turns null into an object, and throws a type error otherwise);
  - GroupEventJSON::serialize from src/core/audit/serializers/
    GroupEventSerializer.cpp, line by line, including the ASSERT_LOG guard
    and the triple-braced initializer that nlohmann::json interprets as a
    one-element array holding the id/type object;
  - the RuntimeSerializerCombiner from PolymorphicAuditSerializer.hpp,
    which walks slot results in order and returns the first engaged
    optional;
  - spec-modelled parts (each marked in its doc comment) for code of the
    repository whose implementation is not among the sources: the base
    serializer AuditJSON::serialize, the remaining built-in per-kind
    serializers, the registry bookkeeping behind register_serializer and
    boost::signals2 connections, and the visitor routing of
    PolymorphicAuditJSON::serialize.
-/

namespace Leosac

/-- JSON values, mirroring nlohmann::json. Objects are association lists of
string keys; the claims are stated through key lookup, so member order never
matters to them. -/
inductive Json where
  | null : Json
  | bool (b : Bool) : Json
  | num (n : Int) : Json
  | str (s : String) : Json
  | arr (elems : List Json) : Json
  | obj (members : List (String × Json)) : Json

/-- Lookup in an object member list, first binding wins. -/
def assocGet : List (String × Json) → String → Option Json
  | [], _ => none
  | (k, v) :: rest, key => if k = key then some v else assocGet rest key

/-- Update in an object member list: replace an existing binding in place,
or append a fresh binding at the end. -/
def assocSet : List (String × Json) → String → Json → List (String × Json)
  | [], key, v => [(key, v)]
  | (k, w) :: rest, key, v =>
      if k = key then (k, v) :: rest else (k, w) :: assocSet rest key v

/-- Member lookup corresponding to nlohmann at(key): produces a value only
when the receiver is an object holding the key; any other case throws in
C++, rendered here as none. -/
def Json.atKey : Json → String → Option Json
  | .obj ms, k => assocGet ms k
  | _, _ => none

/-- Whether a JSON value is a string, mirroring nlohmann is_string(). -/
def Json.isString : Json → Bool
  | .str _ => true
  | _ => false

/-- Failure modes of a built-in serializer: the ASSERT_LOG in
GroupEventSerializer.cpp firing, or a nlohmann exception (at() on a missing
key, bracket assignment into a non-object non-null value). -/
inductive SerError where
  | assertionFailure : SerError
  | typeError : SerError

/-- Bracket assignment j[k] = v, mirroring nlohmann operator[] on the write
path: null becomes a fresh one-member object, an object is updated, and any
other receiver throws a type error. -/
def Json.idxSet : Json → String → Json → Except SerError Json
  | .null, k, v => .ok (.obj [(k, v)])
  | .obj ms, k, v => .ok (.obj (assocSet ms k v))
  | _, _, _ => .error .typeError

/-- Reading j[k] as the intermediate step of a chained assignment
j[k1][k2] = v: on an object the existing member (or null when absent), on
null the null value the freshly inserted member would hold, and a type
error otherwise. -/
def Json.idxGetD : Json → String → Except SerError Json
  | .null, _ => .ok .null
  | .obj ms, k => .ok ((assocGet ms k).getD .null)
  | _, _ => .error .typeError

/-- Chained assignment j[k1][k2] = v as performed by the source. -/
def Json.idxSet2 (j : Json) (k1 k2 : String) (v : Json) : Except SerError Json :=
  match j.idxGetD k1 with
  | .error e => .error e
  | .ok inner =>
    match inner.idxSet k2 v with
    | .error e => .error e
    | .ok inner2 => j.idxSet k1 inner2

/-- Permission actions consulted through SecurityContext. Only
AUDIT_READ_FULL is consumed by the sources; other actions are opaque. -/
inductive Action where
  | AUDIT_READ_FULL : Action
  | otherAction (n : Nat) : Action

/-- The security context capability: a single permission-check operation,
borrowed for the duration of one serialize call. -/
structure SecurityContext where
  check_permission : Action → Bool

/-- Data of a built-in audit event as consumed by the serializers: identity,
timestamp, acting author, target, and the before/after snapshots exposed by
IGroupEvent. The other built-in capabilities are modelled over the same
record because the spec states their serializers reproduce the identical
pattern with kind-appropriate fields. -/
structure IGroupEvent where
  id : String
  timestamp : Int
  author_id : String
  target_id : String
  before : Json
  after : Json

/-- Modelled from the spec: the implementation of the base serializer
AuditJSON::serialize is not among the sources (GroupEventSerializer.cpp
only calls it). Per the spec it populates the common envelope: id, a
provisional generic type tag, timestamp, and the author relationship. The
provisional tag is modelled as the string "audit-entry". -/
def AuditJSON.serialize (ev : IGroupEvent) (_sc : SecurityContext) : Json :=
  Json.obj
    [ ("id", Json.str ev.id)
    , ("type", Json.str "audit-entry")
    , ("timestamp", Json.num ev.timestamp)
    , ("relationships",
        Json.obj [("author",
          Json.obj [("id", Json.str ev.author_id), ("type", Json.str "user")])])
    ]

/-- The value the source assigns to relationships.target: the initializer
has three nested brace levels, which nlohmann::json parses as an array
whose single element is the id/type object. -/
def groupTargetValue (ev : IGroupEvent) : Json :=
  Json.arr [Json.obj [("id", Json.str ev.target_id), ("type", Json.str "group")]]

/-- The body of GroupEventJSON::serialize applied to an arbitrary base
document, mirroring GroupEventSerializer.cpp after the AuditJSON call: the
at("type") lookup, the ASSERT_LOG that the type member is a string, the
type overwrite, the relationships.target assignment, and the
permission-gated before/after assignments. -/
def GroupEventJSON.applyOn (base : Json) (ev : IGroupEvent) (sc : SecurityContext) :
    Except SerError Json :=
  match base.atKey "type" with
  | none => .error .typeError
  | some t =>
    if t.isString = false then .error .assertionFailure
    else
      match base.idxSet "type" (Json.str "audit-group-event") with
      | .error e => .error e
      | .ok s1 =>
        match s1.idxSet2 "relationships" "target" (groupTargetValue ev) with
        | .error e => .error e
        | .ok s2 =>
          if sc.check_permission Action.AUDIT_READ_FULL then
            match s2.idxSet2 "attributes" "before" ev.before with
            | .error e => .error e
            | .ok s3 => s3.idxSet2 "attributes" "after" ev.after
          else .ok s2

/-- GroupEventJSON::serialize: first the base serializer, then the
kind-specific body. -/
def GroupEventJSON.serialize (ev : IGroupEvent) (sc : SecurityContext) :
    Except SerError Json :=
  GroupEventJSON.applyOn (AuditJSON.serialize ev sc) ev sc

/-- The fully serialized group event document when AUDIT_READ_FULL holds. -/
def groupDocFull (ev : IGroupEvent) : Json :=
  Json.obj
    [ ("id", Json.str ev.id)
    , ("type", Json.str "audit-group-event")
    , ("timestamp", Json.num ev.timestamp)
    , ("relationships",
        Json.obj
          [ ("author",
              Json.obj [("id", Json.str ev.author_id), ("type", Json.str "user")])
          , ("target", groupTargetValue ev) ])
    , ("attributes", Json.obj [("before", ev.before), ("after", ev.after)])
    ]

/-- The serialized group event document when AUDIT_READ_FULL is denied. -/
def groupDocRedacted (ev : IGroupEvent) : Json :=
  Json.obj
    [ ("id", Json.str ev.id)
    , ("type", Json.str "audit-group-event")
    , ("timestamp", Json.num ev.timestamp)
    , ("relationships",
        Json.obj
          [ ("author",
              Json.obj [("id", Json.str ev.author_id), ("type", Json.str "user")])
          , ("target", groupTargetValue ev) ])
    ]

theorem groupEventJSON_eval (ev : IGroupEvent) (sc : SecurityContext) :
    GroupEventJSON.serialize ev sc =
      Except.ok (if sc.check_permission Action.AUDIT_READ_FULL
                 then groupDocFull ev else groupDocRedacted ev) := by
  cases hp : sc.check_permission Action.AUDIT_READ_FULL <;>
    simp [GroupEventJSON.serialize, GroupEventJSON.applyOn, AuditJSON.serialize,
      Json.atKey, Json.isString, Json.idxSet, Json.idxSet2, Json.idxGetD,
      assocGet, assocSet, hp, groupDocFull, groupDocRedacted]

/-- The built-in audit event capabilities handled by double dispatch, as
listed by the visitor bases of HelperSerialize in
PolymorphicAuditSerializer.hpp. -/
inductive BuiltinKind where
  | userEvent : BuiltinKind
  | wsapiCall : BuiltinKind
  | scheduleEvent : BuiltinKind
  | groupEvent : BuiltinKind
  | credentialEvent : BuiltinKind
  | doorEvent : BuiltinKind
  | userGroupMembershipEvent : BuiltinKind

/-- An audit entry either satisfies one of the built-in capability
interfaces, or is an extension kind opaque to the core, identified only by
its ability to match a registered callable. -/
inductive IAuditEntry where
  | builtin (k : BuiltinKind) (ev : IGroupEvent) : IAuditEntry
  | extensionKind (kindTag : String) (payload : Json) : IAuditEntry

/-- The callable type behind RuntimeSerializerCallable: a function from the
audit entry and the security context to an optional document, empty when
this serializer does not match the entry. The shared_ptr wrapping, which
exists only for automatic disconnection tracking, is represented by the
connection lifecycle in the registry model below. -/
def RuntimeSerializerCallable : Type :=
  IAuditEntry → SecurityContext → Option Json

/-- The boost::signals2 combiner from PolymorphicAuditSerializer.hpp: scan
the slot results in order and return the first engaged optional; reaching
the end means no valid serializers, or simply no serializers. In
boost::signals2 a slot is invoked exactly when the combiner dereferences
its iterator, so the results consumed by this loop are the invocations. -/
def RuntimeSerializerCombiner.combine : List (Option Json) → Option Json
  | [] => none
  | serialized :: rest =>
    match serialized with
    | some v => some v
    | none => RuntimeSerializerCombiner.combine rest

/-- How many slots the combiner loop dereferences, hence invokes: every slot
up to and including the first one returning an engaged optional, or all of
them when none does. -/
def RuntimeSerializerCombiner.invokedCount : List (Option Json) → Nat
  | [] => 0
  | serialized :: rest =>
    match serialized with
    | some _ => 1
    | none => 1 + RuntimeSerializerCombiner.invokedCount rest

/-- Modelled from the spec: one registration held by the runtime registry.
The implementation of register_serializer and the boost::signals2 slot
bookkeeping are not among the sources (the header only declares them); per
the spec a registration carries a callable and a connection handle, and a
disconnected entry is permanently excluded from dispatch. The connected
flag covers both an explicit disconnect on the handle and the automatic
disconnection performed when the registering module destroys its shared_ptr
side of the callable. -/
structure RegistryEntry where
  conn_id : Nat
  connected : Bool
  callable : RuntimeSerializerCallable

/-- Modelled from the spec: the state behind the static
runtime_serializers_ signal: an ordered collection of registrations, with a
counter supplying fresh connection handles. -/
structure Registry where
  entries : List RegistryEntry
  next_id : Nat

/-- The registry with no registrations. -/
def Registry.empty : Registry :=
  { entries := [], next_id := 0 }

/-- Modelled from the spec: register_serializer appends the callable to the
ordered collection, so registration order is priority order, and returns
the fresh connection handle. -/
def register_serializer (r : Registry) (c : RuntimeSerializerCallable) :
    Registry × Nat :=
  ({ entries := r.entries ++ [{ conn_id := r.next_id, connected := true, callable := c }]
   , next_id := r.next_id + 1 }, r.next_id)

/-- Modelled from the spec: disconnecting a connection handle marks the
matching registration as disconnected, excluding it from every dispatch
that begins afterwards. -/
def Registry.disconnect (r : Registry) (h : Nat) : Registry :=
  { entries := r.entries.map
      (fun ent => if ent.conn_id = h then { ent with connected := false } else ent)
  , next_id := r.next_id }

/-- The registrations a dispatch may draw from: the still-connected entries
in registration order. -/
def Registry.activeEntries (r : Registry) : List RegistryEntry :=
  r.entries.filter (fun ent => ent.connected)

/-- The slot results a dispatch feeds to the combiner, in priority order. -/
def Registry.results (r : Registry) (e : IAuditEntry) (sc : SecurityContext) :
    List (Option Json) :=
  (Registry.activeEntries r).map (fun ent => ent.callable e sc)

/-- Triggering the runtime_serializers_ signal: the combiner over the
connected slots, in registration order. -/
def dispatch_fallback (r : Registry) (e : IAuditEntry) (sc : SecurityContext) :
    Option Json :=
  RuntimeSerializerCombiner.combine (Registry.results r e sc)

/-- Modelled from the spec: fixed per-kind type tags for the built-in
serializers other than the group event one, whose implementations are not
among the sources; the spec names "audit-user-event" as a possible
type-name and requires each kind to own a fixed tag distinct from the
provisional base tag. -/
def BuiltinKind.tag : BuiltinKind → String
  | .userEvent => "audit-user-event"
  | .wsapiCall => "audit-wsapicall"
  | .scheduleEvent => "audit-schedule-event"
  | .groupEvent => "audit-group-event"
  | .credentialEvent => "audit-credential-event"
  | .doorEvent => "audit-door-event"
  | .userGroupMembershipEvent => "audit-user-group-membership-event"

/-- Modelled from the spec: the kind name written into the target
relationship by each built-in serializer. -/
def BuiltinKind.kindName : BuiltinKind → String
  | .userEvent => "user"
  | .wsapiCall => "wsapi-call"
  | .scheduleEvent => "schedule"
  | .groupEvent => "group"
  | .credentialEvent => "credential"
  | .doorEvent => "door"
  | .userGroupMembershipEvent => "user-group-membership"

/-- Modelled from the spec: the built-in serializers other than
GroupEventJSON are not among the sources; per the spec each reproduces the
identical pattern: call the base serializer, assert its type member is a
string, overwrite the type with the fixed kind tag, set the target
relationship to the id/kind-name object, and include the sensitive fields
only when AUDIT_READ_FULL holds. -/
def kindSerialize (tag kindName : String) (ev : IGroupEvent) (sc : SecurityContext) :
    Except SerError Json :=
  match (AuditJSON.serialize ev sc).atKey "type" with
  | none => .error .typeError
  | some t =>
    if t.isString = false then .error .assertionFailure
    else
      match (AuditJSON.serialize ev sc).idxSet "type" (Json.str tag) with
      | .error e => .error e
      | .ok s1 =>
        match s1.idxSet2 "relationships" "target"
            (Json.obj [("id", Json.str ev.target_id), ("type", Json.str kindName)]) with
        | .error e => .error e
        | .ok s2 =>
          if sc.check_permission Action.AUDIT_READ_FULL then
            match s2.idxSet2 "attributes" "before" ev.before with
            | .error e => .error e
            | .ok s3 => s3.idxSet2 "attributes" "after" ev.after
          else .ok s2

/-- Serialization of the built-in kinds: the group event goes through the
source serializer GroupEventJSON::serialize; the other kinds go through the
spec-modelled identical pattern with their own tag and kind name. -/
def builtinSerialize : BuiltinKind → IGroupEvent → SecurityContext → Except SerError Json
  | .groupEvent, ev, sc => GroupEventJSON.serialize ev sc
  | k, ev, sc => kindSerialize k.tag k.kindName ev sc

/-- The outcome of one PolymorphicAuditJSON::serialize call: a document, an
explicit no-serializer-available failure, or a fatal programming error from
a built-in serializer. -/
inductive SerializeOutcome where
  | doc (j : Json) : SerializeOutcome
  | noMatchingSerializer : SerializeOutcome
  | programmingError (e : SerError) : SerializeOutcome

/-- Modelled from the spec: the bodies of PolymorphicAuditJSON::serialize
and of the visit and cannot_visit overrides of HelperSerialize are not
among the sources (the header only declares them). Per the spec, the entry
is first matched against the closed set of built-in capabilities through
double dispatch, checked first and exclusively; only the cannot_visit
catch-all delegates to the runtime-registered fallback chain; and when
neither path yields a result the call reports an explicit
no-serializer-available failure, never an empty document. -/
def PolymorphicAuditJSON.serialize (r : Registry) (e : IAuditEntry)
    (sc : SecurityContext) : SerializeOutcome :=
  match e with
  | .builtin k ev =>
    match builtinSerialize k ev sc with
    | .ok j => .doc j
    | .error er => .programmingError er
  | .extensionKind _ _ =>
    match dispatch_fallback r e sc with
    | some j => .doc j
    | none => .noMatchingSerializer

theorem combine_eq_findSome (rs : List (Option Json)) :
    RuntimeSerializerCombiner.combine rs = rs.findSome? id := by
  induction rs with
  | nil => rfl
  | cons r rest ih =>
    cases r <;> simp [RuntimeSerializerCombiner.combine, List.findSome?, ih]

theorem combine_of_all_none (rs : List (Option Json))
    (h : ∀ o ∈ rs, o = none) : RuntimeSerializerCombiner.combine rs = none := by
  induction rs with
  | nil => rfl
  | cons r rest ih =>
    have hr : r = none := h r (List.mem_cons_self r rest)
    subst hr
    exact ih (fun o ho => h o (List.mem_cons_of_mem _ ho))

theorem invokedCount_iff (rs : List (Option Json)) (i : Nat) :
    i < RuntimeSerializerCombiner.invokedCount rs ↔
      (i < rs.length ∧ ∀ j : Nat, j < i → rs.getD j none = none) := by
  induction rs generalizing i with
  | nil => simp [RuntimeSerializerCombiner.invokedCount]
  | cons r rest ih =>
    cases r with
    | some v =>
      simp only [RuntimeSerializerCombiner.invokedCount, List.length_cons]
      constructor
      · intro hi
        have hz : i = 0 := by omega
        subst hz
        exact ⟨by omega, fun j hj => by omega⟩
      · rintro ⟨_, hall⟩
        by_contra hlt
        have h0 : (0 : Nat) < i := by omega
        have := hall 0 h0
        simp [List.getD_cons_zero] at this
    | none =>
      simp only [RuntimeSerializerCombiner.invokedCount, List.length_cons]
      cases i with
      | zero =>
        constructor
        · intro _
          exact ⟨by omega, fun j hj => by omega⟩
        · intro _
          omega
      | succ i =>
        constructor
        · intro hi
          have hi2 : i < RuntimeSerializerCombiner.invokedCount rest := by omega
          obtain ⟨hlen, hall⟩ := (ih i).mp hi2
          refine ⟨by omega, fun j hj => ?_⟩
          cases j with
          | zero => simp [List.getD_cons_zero]
          | succ j =>
            have : j < i := by omega
            simpa [List.getD_cons_succ] using hall j this
        · rintro ⟨hlen, hall⟩
          have hi2 : i < RuntimeSerializerCombiner.invokedCount rest := by
            refine (ih i).mpr ⟨by omega, fun j hj => ?_⟩
            have := hall (j + 1) (by omega)
            simpa [List.getD_cons_succ] using this
          omega

/-- C2: fallback dispatch tries the registered callables in registration
(priority) order, returns the first non-absent result, keeps iterating past
each absent result, invokes no callable beyond the first success, and
returns absent when every callable returns absent or none is registered;
registration appends at the end of the collection, so list order is
registration order. -/
theorem fallback_dispatch_first_match (r : Registry) (e : IAuditEntry)
    (sc : SecurityContext) :
    dispatch_fallback r e sc = (Registry.results r e sc).findSome? id
    ∧ (∀ i : Nat,
        i < RuntimeSerializerCombiner.invokedCount (Registry.results r e sc) ↔
          (i < (Registry.results r e sc).length
            ∧ ∀ j : Nat, j < i → (Registry.results r e sc).getD j none = none))
    ∧ ((∀ o ∈ Registry.results r e sc, o = none) → dispatch_fallback r e sc = none)
    ∧ (∀ c : RuntimeSerializerCallable,
        (register_serializer r c).fst.entries
          = r.entries ++ [{ conn_id := r.next_id, connected := true, callable := c }]) := by
  refine ⟨combine_eq_findSome _, fun i => invokedCount_iff _ i, ?_, fun c => rfl⟩
  intro h
  exact combine_of_all_none _ h

theorem filter_map_disconnect (l : List RegistryEntry) (h : Nat) :
    (l.map (fun ent => if ent.conn_id = h then { ent with connected := false } else ent)).filter
        (fun ent => ent.connected)
      = (l.filter (fun ent => ent.connected)).filter (fun ent => ent.conn_id != h) := by
  induction l with
  | nil => rfl
  | cons a l ih =>
    by_cases hid : a.conn_id = h
    · by_cases hc : a.connected <;>
        simp [List.filter_cons, hid, hc, ih]
    · by_cases hc : a.connected <;>
        simp [List.filter_cons, hid, hc, ih]

/-- C1: after a connection handle is disconnected, the candidate set of
every dispatch that begins afterwards is exactly the previously connected
entries other than the disconnected one, in unchanged order; hence the
disconnected callable is never invoked and dispatch falls through to the
remaining candidates or, when the combiner exhausts them, to the no-match
outcome. -/
theorem disconnect_prevents_stale_invocation (r : Registry) (h : Nat)
    (e : IAuditEntry) (sc : SecurityContext) :
    Registry.activeEntries (Registry.disconnect r h)
        = (Registry.activeEntries r).filter (fun ent => ent.conn_id != h)
    ∧ (∀ ent ∈ Registry.activeEntries (Registry.disconnect r h), ent.conn_id ≠ h)
    ∧ dispatch_fallback (Registry.disconnect r h) e sc
        = RuntimeSerializerCombiner.combine
            (((Registry.activeEntries r).filter (fun ent => ent.conn_id != h)).map
              (fun ent => ent.callable e sc)) := by
  have hact : Registry.activeEntries (Registry.disconnect r h)
      = (Registry.activeEntries r).filter (fun ent => ent.conn_id != h) :=
    filter_map_disconnect r.entries h
  refine ⟨hact, ?_, ?_⟩
  · intro ent hent
    rw [hact] at hent
    have := List.of_mem_filter hent
    simpa using this
  · show RuntimeSerializerCombiner.combine
        ((Registry.activeEntries (Registry.disconnect r h)).map
          (fun ent => ent.callable e sc)) = _
    rw [hact]

/-- C3: an entry satisfying a built-in capability is always routed to the
corresponding built-in serializer, independently of the registry: the
fallback chain is never consulted for it, even when a registered callable
would also accept it; the fallback chain is reached exactly by the
extension-kind entries through the cannot_visit catch-all. -/
theorem builtin_dispatch_precedence (r r2 : Registry) (k : BuiltinKind)
    (ev : IGroupEvent) (sc : SecurityContext) :
    PolymorphicAuditJSON.serialize r (.builtin k ev) sc
        = (match builtinSerialize k ev sc with
           | .ok j => .doc j
           | .error er => .programmingError er)
    ∧ PolymorphicAuditJSON.serialize r (.builtin k ev) sc
        = PolymorphicAuditJSON.serialize r2 (.builtin k ev) sc
    ∧ (∀ kindTag payload,
        PolymorphicAuditJSON.serialize r (.extensionKind kindTag payload) sc
          = (match dispatch_fallback r (.extensionKind kindTag payload) sc with
             | some j => .doc j
             | none => .noMatchingSerializer)) :=
  ⟨rfl, rfl, fun _ _ => rfl⟩

/-- C7: an extension-kind entry for which every connected callable returns
absent, in particular when none is registered, makes serialize report the
explicit no-matching-serializer outcome, which is a distinct constructor
from every document outcome, so no empty or default document is returned. -/
theorem no_matching_serializer_failure (r : Registry) (kindTag : String)
    (payload : Json) (sc : SecurityContext)
    (h : ∀ ent ∈ Registry.activeEntries r,
      ent.callable (.extensionKind kindTag payload) sc = none) :
    PolymorphicAuditJSON.serialize r (.extensionKind kindTag payload) sc
      = SerializeOutcome.noMatchingSerializer := by
  have hnone : dispatch_fallback r (.extensionKind kindTag payload) sc = none := by
    apply combine_of_all_none
    intro o ho
    rcases List.mem_map.mp ho with ⟨ent, hent, rfl⟩
    exact h ent hent
  simp [PolymorphicAuditJSON.serialize, hnone]

/-- Closed witness for C7: with the empty registry, serializing a concrete
extension-kind entry reports the no-matching-serializer outcome. -/
theorem no_matching_serializer_failure_witness :
    PolymorphicAuditJSON.serialize Registry.empty
        (.extensionKind "module-event" Json.null) ⟨fun _ => false⟩
      = SerializeOutcome.noMatchingSerializer :=
  no_matching_serializer_failure Registry.empty "module-event" Json.null
    ⟨fun _ => false⟩ (by intro ent hent; simp [Registry.empty, Registry.activeEntries] at hent)

/-- A concrete group event used to instantiate the universally quantified
theorems below: before and after snapshots as in the spec example, target
id g1. -/
def evWitness : IGroupEvent :=
  { id := "entry-1"
  , timestamp := 42
  , author_id := "alice-id"
  , target_id := "g1"
  , before := Json.obj [("a", Json.num 1)]
  , after := Json.obj [("a", Json.num 2)] }

/-- A security context granting every permission. -/
def scFull : SecurityContext :=
  { check_permission := fun _ => true }

/-- A security context denying every permission. -/
def scNone : SecurityContext :=
  { check_permission := fun _ => false }

/-- C4: in every successfully serialized group event document, the
attributes.before and attributes.after members exist exactly when
AUDIT_READ_FULL holds, in which case they equal the before and after
snapshots of the event; when the permission is denied the lookups find no
such members at all; the type tag and the relationships.target member are
present in both cases. -/
theorem group_event_permission_redaction (ev : IGroupEvent) (sc : SecurityContext)
    (j : Json) (h : GroupEventJSON.serialize ev sc = Except.ok j) :
    ((j.atKey "attributes").bind (fun a => a.atKey "before")
        = if sc.check_permission Action.AUDIT_READ_FULL then some ev.before else none)
    ∧ ((j.atKey "attributes").bind (fun a => a.atKey "after")
        = if sc.check_permission Action.AUDIT_READ_FULL then some ev.after else none)
    ∧ j.atKey "type" = some (Json.str "audit-group-event")
    ∧ ((j.atKey "relationships").bind (fun rel => rel.atKey "target")).isSome = true := by
  rw [groupEventJSON_eval] at h
  cases hp : sc.check_permission Action.AUDIT_READ_FULL <;>
    (rw [hp] at h
     simp only [if_pos, if_neg, Bool.false_eq_true, reduceIte, Except.ok.injEq] at h
     subst h
     simp [groupDocFull, groupDocRedacted, Json.atKey, assocGet, groupTargetValue, hp])

/-- Closed witness for C4 at the concrete event with full permission: the
before snapshot is found under attributes. -/
theorem group_event_permission_redaction_witness :
    (((groupDocFull evWitness).atKey "attributes").bind (fun a => a.atKey "before")
        = if scFull.check_permission Action.AUDIT_READ_FULL
          then some evWitness.before else none) :=
  (group_event_permission_redaction evWitness scFull (groupDocFull evWitness)
    (by rfl)).1

/-- Counterexample for C5 at the concrete event: the serialized document
stores under relationships.target the one-element array holding the id/type
object, and that array is not the id/type object itself, because the
triple-braced initializer in GroupEventSerializer.cpp builds an array. -/
theorem group_target_object_shape_counterexample :
    GroupEventJSON.serialize evWitness scNone = Except.ok (groupDocRedacted evWitness)
    ∧ ((groupDocRedacted evWitness).atKey "relationships").bind
          (fun rel => rel.atKey "target")
        = some (Json.arr [Json.obj [("id", Json.str "g1"), ("type", Json.str "group")]])
    ∧ Json.arr [Json.obj [("id", Json.str "g1"), ("type", Json.str "group")]]
        ≠ Json.obj [("id", Json.str "g1"), ("type", Json.str "group")] :=
  ⟨rfl, rfl, fun hcontra => Json.noConfusion hcontra⟩

/-- C5 as amended: for every group event, the serialized document stores
under relationships.target the one-element array whose sole element is the
object with the id of the target and the type "group", regardless of the
security context. -/
theorem group_target_array_shape (ev : IGroupEvent) (sc : SecurityContext)
    (j : Json) (h : GroupEventJSON.serialize ev sc = Except.ok j) :
    (j.atKey "relationships").bind (fun rel => rel.atKey "target")
      = some (Json.arr
          [Json.obj [("id", Json.str ev.target_id), ("type", Json.str "group")]]) := by
  rw [groupEventJSON_eval] at h
  cases hp : sc.check_permission Action.AUDIT_READ_FULL <;>
    (rw [hp] at h
     simp only [if_pos, if_neg, Bool.false_eq_true, reduceIte, Except.ok.injEq] at h
     subst h
     simp [groupDocFull, groupDocRedacted, Json.atKey, assocGet, groupTargetValue])

/-- Closed witness for the amended C5 at the concrete event without
permission. -/
theorem group_target_array_shape_witness :
    ((groupDocRedacted evWitness).atKey "relationships").bind
        (fun rel => rel.atKey "target")
      = some (Json.arr
          [Json.obj [("id", Json.str evWitness.target_id), ("type", Json.str "group")]]) :=
  group_target_array_shape evWitness scNone (groupDocRedacted evWitness) (by rfl)

theorem kindSerialize_type (tag kindName : String) (ev : IGroupEvent)
    (sc : SecurityContext) (j : Json)
    (h : kindSerialize tag kindName ev sc = Except.ok j) :
    j.atKey "type" = some (Json.str tag) := by
  cases hp : sc.check_permission Action.AUDIT_READ_FULL <;>
    (simp [kindSerialize, AuditJSON.serialize, Json.atKey, assocGet,
       Json.isString, Json.idxSet, Json.idxSet2, Json.idxGetD, assocSet, hp] at h
     subst h
     simp [Json.atKey, assocGet, assocSet])

/-- C6: a successful built-in serialization carries the fixed type tag of
its kind, and that tag is never the provisional generic tag of the base
envelope. -/
theorem builtin_type_tagging (k : BuiltinKind) (ev : IGroupEvent)
    (sc : SecurityContext) (j : Json)
    (h : builtinSerialize k ev sc = Except.ok j) :
    j.atKey "type" = some (Json.str k.tag) ∧ k.tag ≠ "audit-entry" := by
  cases k
  case groupEvent =>
    refine ⟨?_, by decide⟩
    have h2 : GroupEventJSON.serialize ev sc = Except.ok j := h
    rw [groupEventJSON_eval] at h2
    cases hp : sc.check_permission Action.AUDIT_READ_FULL <;>
      (rw [hp] at h2
       simp only [if_pos, if_neg, Bool.false_eq_true, reduceIte, Except.ok.injEq] at h2
       subst h2
       simp [groupDocFull, groupDocRedacted, Json.atKey, assocGet, BuiltinKind.tag])
  all_goals exact ⟨kindSerialize_type _ _ _ _ _ h, by decide⟩

/-- Closed witness for C6 at the concrete group event without permission. -/
theorem builtin_type_tagging_witness :
    (groupDocRedacted evWitness).atKey "type"
        = some (Json.str (BuiltinKind.tag BuiltinKind.groupEvent))
    ∧ BuiltinKind.tag BuiltinKind.groupEvent ≠ "audit-entry" :=
  builtin_type_tagging BuiltinKind.groupEvent evWitness scNone
    (groupDocRedacted evWitness) (by rfl)

theorem idxSet_error_eq (j : Json) (k : String) (v : Json) (e : SerError)
    (h : j.idxSet k v = Except.error e) : e = SerError.typeError := by
  cases j <;> simp [Json.idxSet] at h <;> exact h.symm

theorem idxGetD_error_eq (j : Json) (k : String) (e : SerError)
    (h : j.idxGetD k = Except.error e) : e = SerError.typeError := by
  cases j <;> simp [Json.idxGetD] at h <;> exact h.symm

theorem idxSet2_error_eq (j : Json) (k1 k2 : String) (v : Json) (e : SerError)
    (h : j.idxSet2 k1 k2 v = Except.error e) : e = SerError.typeError := by
  unfold Json.idxSet2 at h
  cases hg : j.idxGetD k1 with
  | error e2 =>
    simp only [hg] at h
    cases h
    exact idxGetD_error_eq j k1 e hg
  | ok inner =>
    simp only [hg] at h
    cases hs : inner.idxSet k2 v with
    | error e2 =>
      simp only [hs] at h
      cases h
      exact idxSet_error_eq inner k2 v e hs
    | ok inner2 =>
      simp only [hs] at h
      exact idxSet_error_eq j k1 inner2 e h

theorem idxSet2_no_assert (j : Json) (k1 k2 : String) (v : Json) :
    j.idxSet2 k1 k2 v ≠ Except.error SerError.assertionFailure := by
  intro hcontra
  have := idxSet2_error_eq j k1 k2 v SerError.assertionFailure hcontra
  exact SerError.noConfusion this

/-- C8: the group event serializer invokes the base serializer first and
then overwrites its type member; whenever the base document carries a
non-string type member the ASSERT_LOG fires, so the call ends in the
assertion failure and yields no document; and whenever the base type member
is a string, the assertion-failure outcome is unreachable whatever else
happens. -/
theorem base_type_assertion_guard (base : Json) (ev : IGroupEvent)
    (sc : SecurityContext) (t : Json) (h : base.atKey "type" = some t) :
    (t.isString = false →
        GroupEventJSON.applyOn base ev sc = Except.error SerError.assertionFailure)
    ∧ (t.isString = true →
        GroupEventJSON.applyOn base ev sc ≠ Except.error SerError.assertionFailure)
    ∧ GroupEventJSON.serialize ev sc
        = GroupEventJSON.applyOn (AuditJSON.serialize ev sc) ev sc := by
  refine ⟨?_, ?_, rfl⟩
  · intro hstr
    simp [GroupEventJSON.applyOn, h, hstr]
  · intro hstr
    simp only [GroupEventJSON.applyOn, h, hstr, Bool.true_eq_false, if_neg,
      Bool.false_eq_true, not_false_eq_true, reduceIte]
    cases hs1 : base.idxSet "type" (Json.str "audit-group-event") with
    | error e =>
      have he := idxSet_error_eq _ _ _ _ hs1
      subst he
      simp [hs1]
    | ok s1 =>
      simp only [hs1]
      cases hs2 : s1.idxSet2 "relationships" "target" (groupTargetValue ev) with
      | error e =>
        have he := idxSet2_error_eq _ _ _ _ _ hs2
        subst he
        simp [hs2]
      | ok s2 =>
        simp only [hs2]
        cases hp : sc.check_permission Action.AUDIT_READ_FULL with
        | false => simp [hp]
        | true =>
          simp only [hp, reduceIte]
          cases hs3 : s2.idxSet2 "attributes" "before" ev.before with
          | error e =>
            have he := idxSet2_error_eq _ _ _ _ _ hs3
            subst he
            simp [hs3]
          | ok s3 =>
            simp only [hs3]
            exact idxSet2_no_assert s3 "attributes" "after" ev.after

/-- Closed witness for C8: a base document whose type member is the number
3 drives the group event serializer into the assertion failure. -/
theorem base_type_assertion_guard_witness :
    GroupEventJSON.applyOn (Json.obj [("type", Json.num 3)]) evWitness scNone
      = Except.error SerError.assertionFailure :=
  (base_type_assertion_guard (Json.obj [("type", Json.num 3)]) evWitness scNone
    (Json.num 3) (by rfl)).1 (by rfl)

theorem assocGet_assocSet_ne (l : List (String × Json)) (k k2 : String)
    (v : Json) (hne : k2 ≠ k) :
    assocGet (assocSet l k v) k2 = assocGet l k2 := by
  have hne2 : ¬(k = k2) := fun heq => hne (Eq.symm heq)
  induction l with
  | nil =>
    simp [assocSet, assocGet, hne2]
  | cons a l ih =>
    obtain ⟨ka, va⟩ := a
    by_cases hk : ka = k
    · subst hk
      simp [assocSet, assocGet, hne2]
    · by_cases hk2 : ka = k2 <;> simp [assocSet, assocGet, hk, hk2, hne, ih]

theorem assocGet_assocSet_eq (l : List (String × Json)) (k : String) (v : Json) :
    assocGet (assocSet l k v) k = some v := by
  induction l with
  | nil => simp [assocSet, assocGet]
  | cons a l ih =>
    obtain ⟨ka, va⟩ := a
    by_cases hk : ka = k <;> simp [assocSet, assocGet, hk, ih]

theorem atKey_idxSet_ne (j j2 : Json) (k k2 : String) (v : Json)
    (hset : j.idxSet k v = Except.ok j2) (hne : k2 ≠ k) :
    j2.atKey k2 = j.atKey k2 := by
  have hne2 : ¬(k = k2) := fun heq => hne (Eq.symm heq)
  cases j <;> simp [Json.idxSet] at hset
  case null =>
    subst hset
    simp [Json.atKey, assocGet, hne2]
  case obj ms =>
    subst hset
    simp [Json.atKey, assocGet_assocSet_ne ms k k2 v hne]

theorem atKey_idxSet_eq (j j2 : Json) (k : String) (v : Json)
    (hset : j.idxSet k v = Except.ok j2) :
    j2.atKey k = some v := by
  cases j <;> simp [Json.idxSet] at hset
  case null =>
    subst hset
    simp [Json.atKey, assocGet]
  case obj ms =>
    subst hset
    simp [Json.atKey, assocGet_assocSet_eq ms k v]

theorem atKey_idxSet2_ne (j j2 : Json) (k1 k2 k3 : String) (v : Json)
    (hset : j.idxSet2 k1 k2 v = Except.ok j2) (hne : k3 ≠ k1) :
    j2.atKey k3 = j.atKey k3 := by
  unfold Json.idxSet2 at hset
  cases hg : j.idxGetD k1 with
  | error e =>
    simp only [hg] at hset
    exact Except.noConfusion hset
  | ok inner =>
    simp only [hg] at hset
    cases hs : inner.idxSet k2 v with
    | error e =>
      simp only [hs] at hset
      exact Except.noConfusion hset
    | ok inner2 =>
      simp only [hs] at hset
      exact atKey_idxSet_ne j j2 k1 k3 inner2 hset hne

theorem atKey2_idxSet2_eq (j j2 : Json) (k1 k2 : String) (v : Json)
    (hset : j.idxSet2 k1 k2 v = Except.ok j2) :
    (j2.atKey k1).bind (fun m => m.atKey k2) = some v := by
  unfold Json.idxSet2 at hset
  cases hg : j.idxGetD k1 with
  | error e =>
    simp only [hg] at hset
    exact Except.noConfusion hset
  | ok inner =>
    simp only [hg] at hset
    cases hs : inner.idxSet k2 v with
    | error e =>
      simp only [hs] at hset
      exact Except.noConfusion hset
    | ok inner2 =>
      simp only [hs] at hset
      have h1 : j2.atKey k1 = some inner2 := atKey_idxSet_eq j j2 k1 inner2 hset
      have h2 : inner2.atKey k2 = some v := atKey_idxSet_eq inner inner2 k2 v hs
      simp [h1, h2]

theorem atKey2_idxSet2_ne (j j2 : Json) (k1 k2 k3 : String) (v : Json)
    (hset : j.idxSet2 k1 k2 v = Except.ok j2) (hne : k3 ≠ k2) :
    (j2.atKey k1).bind (fun m => m.atKey k3)
      = (j.atKey k1).bind (fun m => m.atKey k3) := by
  unfold Json.idxSet2 at hset
  cases hg : j.idxGetD k1 with
  | error e =>
    simp only [hg] at hset
    exact Except.noConfusion hset
  | ok inner =>
    simp only [hg] at hset
    cases hs : inner.idxSet k2 v with
    | error e =>
      simp only [hs] at hset
      exact Except.noConfusion hset
    | ok inner2 =>
      simp only [hs] at hset
      have h1 : j2.atKey k1 = some inner2 := atKey_idxSet_eq j j2 k1 inner2 hset
      have h2 : inner2.atKey k3 = inner.atKey k3 :=
        atKey_idxSet_ne inner inner2 k2 k3 v hs hne
      rw [h1]
      cases j <;> simp [Json.idxGetD] at hg
      case null =>
        subst hg
        simp only [Json.atKey, Option.bind_some, Option.bind_none]
        simpa [Json.atKey] using h2
      case obj ms =>
        cases hm : assocGet ms k1 with
        | none =>
          rw [hm] at hg
          simp at hg
          subst hg
          simp only [Json.atKey, hm, Option.bind_some, Option.bind_none]
          simpa [Json.atKey] using h2
        | some w =>
          rw [hm] at hg
          simp at hg
          subst hg
          simp only [Json.atKey, hm, Option.bind_some, Option.bind_none]
          simpa [Json.atKey] using h2

/-- C10: a successful group event serialization differs from the base
document only in the type member, the relationships.target member, and,
when AUDIT_READ_FULL holds, the attributes.before and attributes.after
members; every other member of the base envelope, every other
relationships member, and every other attributes member is carried through
unchanged; without the permission the attributes member is untouched
altogether. -/
theorem group_event_frame (base : Json) (ev : IGroupEvent) (sc : SecurityContext)
    (j : Json) (h : GroupEventJSON.applyOn base ev sc = Except.ok j) :
    (∀ k : String, k ≠ "type" → k ≠ "relationships" → k ≠ "attributes" →
        j.atKey k = base.atKey k)
    ∧ j.atKey "type" = some (Json.str "audit-group-event")
    ∧ (∀ k : String, k ≠ "target" →
        (j.atKey "relationships").bind (fun rel => rel.atKey k)
          = (base.atKey "relationships").bind (fun rel => rel.atKey k))
    ∧ (sc.check_permission Action.AUDIT_READ_FULL = false →
        j.atKey "attributes" = base.atKey "attributes")
    ∧ (sc.check_permission Action.AUDIT_READ_FULL = true →
        ∀ k : String, k ≠ "before" → k ≠ "after" →
          (j.atKey "attributes").bind (fun a => a.atKey k)
            = (base.atKey "attributes").bind (fun a => a.atKey k))
    ∧ GroupEventJSON.serialize ev sc
        = GroupEventJSON.applyOn (AuditJSON.serialize ev sc) ev sc := by
  unfold GroupEventJSON.applyOn at h
  cases hT : base.atKey "type" with
  | none =>
    simp only [hT] at h
    exact Except.noConfusion h
  | some t =>
    simp only [hT] at h
    by_cases hstr : t.isString = false
    · simp only [hstr, reduceIte] at h
      exact Except.noConfusion h
    · rw [if_neg hstr] at h
      cases hs1 : base.idxSet "type" (Json.str "audit-group-event") with
      | error e =>
        simp only [hs1] at h
        exact Except.noConfusion h
      | ok s1 =>
        simp only [hs1] at h
        cases hs2 : s1.idxSet2 "relationships" "target" (groupTargetValue ev) with
        | error e =>
          simp only [hs2] at h
          exact Except.noConfusion h
        | ok s2 =>
          simp only [hs2] at h
          cases hp : sc.check_permission Action.AUDIT_READ_FULL with
          | false =>
            simp only [hp, Bool.false_eq_true, reduceIte] at h
            injection h with hj
            subst hj
            refine ⟨?_, ?_, ?_, ?_, ?_, rfl⟩
            · intro k hk1 hk2 _
              rw [atKey_idxSet2_ne s1 s2 "relationships" "target" k
                    (groupTargetValue ev) hs2 hk2,
                  atKey_idxSet_ne base s1 "type" k (Json.str "audit-group-event") hs1 hk1]
            · rw [atKey_idxSet2_ne s1 s2 "relationships" "target" "type"
                    (groupTargetValue ev) hs2 (by decide)]
              exact atKey_idxSet_eq base s1 "type" (Json.str "audit-group-event") hs1
            · intro k hk
              rw [atKey2_idxSet2_ne s1 s2 "relationships" "target" k
                    (groupTargetValue ev) hs2 hk,
                  atKey_idxSet_ne base s1 "type" "relationships"
                    (Json.str "audit-group-event") hs1 (by decide)]
            · intro _
              rw [atKey_idxSet2_ne s1 s2 "relationships" "target" "attributes"
                    (groupTargetValue ev) hs2 (by decide),
                  atKey_idxSet_ne base s1 "type" "attributes"
                    (Json.str "audit-group-event") hs1 (by decide)]
            · intro htrue
              exact Bool.noConfusion htrue
          | true =>
            simp only [hp, reduceIte] at h
            cases hs3 : s2.idxSet2 "attributes" "before" ev.before with
            | error e =>
              simp only [hs3] at h
              exact Except.noConfusion h
            | ok s3 =>
              simp only [hs3] at h
              refine ⟨?_, ?_, ?_, ?_, ?_, rfl⟩
              · intro k hk1 hk2 hk3
                rw [atKey_idxSet2_ne s3 j "attributes" "after" k ev.after h hk3,
                    atKey_idxSet2_ne s2 s3 "attributes" "before" k ev.before hs3 hk3,
                    atKey_idxSet2_ne s1 s2 "relationships" "target" k
                      (groupTargetValue ev) hs2 hk2,
                    atKey_idxSet_ne base s1 "type" k (Json.str "audit-group-event") hs1 hk1]
              · rw [atKey_idxSet2_ne s3 j "attributes" "after" "type" ev.after h (by decide),
                    atKey_idxSet2_ne s2 s3 "attributes" "before" "type" ev.before hs3
                      (by decide),
                    atKey_idxSet2_ne s1 s2 "relationships" "target" "type"
                      (groupTargetValue ev) hs2 (by decide)]
                exact atKey_idxSet_eq base s1 "type" (Json.str "audit-group-event") hs1
              · intro k hk
                rw [atKey_idxSet2_ne s3 j "attributes" "after" "relationships" ev.after h
                      (by decide),
                    atKey_idxSet2_ne s2 s3 "attributes" "before" "relationships" ev.before
                      hs3 (by decide),
                    atKey2_idxSet2_ne s1 s2 "relationships" "target" k
                      (groupTargetValue ev) hs2 hk,
                    atKey_idxSet_ne base s1 "type" "relationships"
                      (Json.str "audit-group-event") hs1 (by decide)]
              · intro hfalse
                exact Bool.noConfusion hfalse
              · intro _ k hk1 hk2
                rw [atKey2_idxSet2_ne s3 j "attributes" "after" k ev.after h hk2,
                    atKey2_idxSet2_ne s2 s3 "attributes" "before" k ev.before hs3 hk1,
                    atKey_idxSet2_ne s1 s2 "relationships" "target" "attributes"
                      (groupTargetValue ev) hs2 (by decide),
                    atKey_idxSet_ne base s1 "type" "attributes"
                      (Json.str "audit-group-event") hs1 (by decide)]

/-- A base document with a member foreign to the group serializer, used to
witness the frame property. -/
def baseWitness : Json :=
  Json.obj [("type", Json.str "audit-entry"), ("extra", Json.num 7)]

/-- The document the group serializer body produces from baseWitness for
the concrete event without permission. -/
def frameDoc : Json :=
  Json.obj
    [ ("type", Json.str "audit-group-event")
    , ("extra", Json.num 7)
    , ("relationships", Json.obj [("target", groupTargetValue evWitness)]) ]

/-- Closed witness for C10: the foreign member of the base document is
carried through unchanged. -/
theorem group_event_frame_witness :
    frameDoc.atKey "extra" = baseWitness.atKey "extra" :=
  (group_event_frame baseWitness evWitness scNone frameDoc (by rfl)).1
    "extra" (by decide) (by decide) (by decide)

end Leosac
